import Mathlib

/-!
Verification development for the GitHub History Weaver core: the plan
compilation adapter (`generateSimulationPlan`, from services/geminiService.ts)
and the sequential weaving executor (`handleWeave`, from App.tsx).

External collaborators (the text generator, the JSON parser of the runtime,
and the remote-repository client `initGitHub` / `executeGitEvent`) are
modelled as oracle parameters: a run of the embedded function is a pure
function of the configuration, the plan, and the collaborators' responses.
Wall-clock log timestamps are abstracted away; a log entry is its severity
and its formatted message.
-/

namespace Weaver

/-! ## Calendar model

The fallback plan in geminiService.ts computes
`new Date(new Date(config.startDate).getTime() + 86400000).toISOString()`.
We model the ECMAScript `Date` semantics for canonical calendar-date strings
(`YYYY-MM-DD`, the shape produced by the date form inputs): such a string is
parsed as UTC midnight, and `toISOString` renders the full
`YYYY-MM-DDTHH:mm:ss.sssZ` form.  The proleptic Gregorian conversions follow
the standard civil-from-days / days-from-civil algorithms.
-/

/-- Days since the Unix epoch of a proleptic-Gregorian civil date. -/
def daysFromCivil (y m d : Int) : Int :=
  let y' := if m ≤ 2 then y - 1 else y
  let era := Int.fdiv y' 400
  let yoe := y' - era * 400
  let mp := Int.emod (m + 9) 12
  let doy := Int.fdiv (153 * mp + 2) 5 + d - 1
  let doe := yoe * 365 + Int.fdiv yoe 4 - Int.fdiv yoe 100 + doy
  era * 146097 + doe - 719468

/-- Civil date (year, month, day) of a days-since-epoch count. -/
def civilFromDays (z₀ : Int) : Int × Int × Int :=
  let z := z₀ + 719468
  let era := Int.fdiv z 146097
  let doe := z - era * 146097
  let yoe := Int.fdiv (doe - Int.fdiv doe 1460 + Int.fdiv doe 36524 - Int.fdiv doe 146096) 365
  let y := yoe + era * 400
  let doy := doe - (365 * yoe + Int.fdiv yoe 4 - Int.fdiv yoe 100)
  let mp := Int.fdiv (5 * doy + 2) 153
  let d := doy - Int.fdiv (153 * mp + 2) 5 + 1
  let m := mp + (if mp < 10 then 3 else -9)
  (if m ≤ 2 then y + 1 else y, m, d)

def isLeapYear (y : Int) : Bool :=
  (Int.emod y 4 = 0 ∧ Int.emod y 100 ≠ 0) ∨ Int.emod y 400 = 0

def daysInMonth (y m : Int) : Int :=
  if m = 2 then (if isLeapYear y then 29 else 28)
  else if m = 4 ∨ m = 6 ∨ m = 9 ∨ m = 11 then 30
  else 31

/-- Split a character list at every dash, keeping empty segments. -/
def splitDash : List Char → List (List Char)
  | [] => [[]]
  | c :: cs =>
    if c = '-' then [] :: splitDash cs
    else
      match splitDash cs with
      | [] => [[c]]
      | p :: ps => (c :: p) :: ps

/-- Read a non-empty all-digit character list as a natural number. -/
def digitsToNat? (l : List Char) : Option Nat :=
  if l.isEmpty then none
  else l.foldl (fun acc c =>
    acc.bind (fun n => if c.isDigit then some (n * 10 + (c.toNat - 48)) else none)) (some 0)

/-- `Date.parse` of a canonical `YYYY-MM-DD` string: epoch milliseconds of UTC
midnight of that date, `none` when the string is not a valid calendar date
(where ECMAScript would produce an invalid date). -/
def parseIsoDate (s : String) : Option Int :=
  match splitDash s.data with
  | [ys, ms, ds] =>
    match digitsToNat? ys, digitsToNat? ms, digitsToNat? ds with
    | some y, some m, some d =>
      if ys.length = 4 ∧ ms.length = 2 ∧ ds.length = 2 ∧
          1 ≤ m ∧ m ≤ 12 ∧ 1 ≤ d ∧ (d : Int) ≤ daysInMonth (y : Int) (m : Int) then
        some (daysFromCivil (y : Int) (m : Int) (d : Int) * 86400000)
      else none
    | _, _, _ => none
  | _ => none

def pad2 (n : Int) : String := if n < 10 then "0" ++ toString n else toString n

def pad3 (n : Int) : String :=
  if n < 10 then "00" ++ toString n
  else if n < 100 then "0" ++ toString n
  else toString n

def pad4 (n : Int) : String :=
  if n < 10 then "000" ++ toString n
  else if n < 100 then "00" ++ toString n
  else if n < 1000 then "0" ++ toString n
  else toString n

/-- `Date.prototype.toISOString` on an epoch-milliseconds value. -/
def toIsoString (ms : Int) : String :=
  let day : Int := 86400000
  let z := Int.fdiv ms day
  let rem := ms - z * day
  let ymd := civilFromDays z
  let hh := Int.fdiv rem 3600000
  let mi := Int.fdiv (Int.emod rem 3600000) 60000
  let ss := Int.fdiv (Int.emod rem 60000) 1000
  let msec := Int.emod rem 1000
  pad4 ymd.1 ++ "-" ++ pad2 ymd.2.1 ++ "-" ++ pad2 ymd.2.2 ++ "T" ++
    pad2 hh ++ ":" ++ pad2 mi ++ ":" ++ pad2 ss ++ "." ++ pad3 msec ++ "Z"

/-- The fallback plan's second date:
`new Date(new Date(s).getTime() + 86400000).toISOString()`.  Total model: on a
string that does not parse as a calendar date it returns a marker string
(ECMAScript `toISOString` throws a RangeError there; the theorems below only
use this function under the spec's date-validity invariant on configurations). -/
def addOneDayIso (s : String) : String :=
  match parseIsoDate s with
  | some ms => toIsoString (ms + 86400000)
  | none => "RangeError: Invalid time value"

/-! ## String cleaning model

geminiService.ts cleans the generator's response with
`text.replace(/```json/g, '').replace(/```/g, '').trim()`.
We model the global literal-pattern replace as left-to-right non-overlapping
removal of every occurrence of the pattern, written with a fuel argument
(initially the string length) so that the recursion is structural and the
definition evaluates inside the kernel. -/

/-- Does `l` start with `p`? -/
def listStartsWith : List Char → List Char → Bool
  | [], _ => true
  | _ :: _, [] => false
  | p :: ps, c :: cs => p = c ∧ listStartsWith ps cs

/-- Remove every (non-overlapping, leftmost-first) occurrence of the non-empty
pattern `pat`; `fuel` bounds the recursion depth. -/
def stripPatFuel (pat : List Char) : Nat → List Char → List Char
  | _, [] => []
  | 0, l => l
  | fuel + 1, c :: cs =>
    if listStartsWith pat (c :: cs) ∧ 0 < pat.length then
      stripPatFuel pat fuel (cs.drop (pat.length - 1))
    else c :: stripPatFuel pat fuel cs

/-- `s.replace(pat, '')` for a global literal pattern. -/
def stripPat (pat l : List Char) : List Char := stripPatFuel pat l.length l

/-- ECMAScript string whitespace relevant here. -/
def isJsSpace (c : Char) : Bool := c = ' ' ∨ c = '\t' ∨ c = '\n' ∨ c = '\r'

/-- `String.prototype.trim`. -/
def trimChars (l : List Char) : List Char :=
  ((l.dropWhile isJsSpace).reverse.dropWhile isJsSpace).reverse

/-- `text.replace(/```json/g, '').replace(/```/g, '').trim()` from
`generateSimulationPlan`. -/
def cleanJson (text : String) : String :=
  String.mk (trimChars (stripPat "```".toList (stripPat "```json".toList text.data)))

/-! ## Data model (types.ts) -/

/-- `UserConfig` from types.ts.  `strategy` is one of `"gitflow"`,
`"github-flow"`, `"trunk"`; it and the other narrative fields are only ever
interpolated into text, so they are carried as strings. -/
structure UserConfig where
  githubToken : String
  username : String
  targetRepo : String
  startDate : String
  endDate : String
  techStack : String
  intensity : Nat
  strategy : String
  includeLfs : Bool
  achievements : List String
deriving DecidableEq, Repr

/-- The six-value event kind enumeration of `GitEvent.type`. -/
inductive EventType
  | commit
  | branch
  | merge
  | issue
  | pr
  | tag
deriving DecidableEq, Repr

/-- `GitEvent` from types.ts. -/
structure GitEvent where
  id : String
  date : String
  type : EventType
  title : String
  description : String
  branch : Option String
  filesChanged : Option Nat
  author : String
  tags : Option (List String)
deriving DecidableEq, Repr

/-- Log severities of `LogEntry` from types.ts. -/
inductive LogLevel
  | info
  | success
  | warning
  | error
deriving DecidableEq, Repr

/-- `LogEntry` from types.ts, minus the wall-clock timestamp (which is taken
from the clock at append time and carries no information about the run). -/
structure LogEntry where
  level : LogLevel
  message : String
deriving DecidableEq, Repr

/-! ## Plan generator adapter (services/geminiService.ts) -/

/-- JS `event.type.toUpperCase()` / the literal kind strings. -/
def typeUpper : EventType → String
  | .commit => "COMMIT"
  | .branch => "BRANCH"
  | .merge => "MERGE"
  | .issue => "ISSUE"
  | .pr => "PR"
  | .tag => "TAG"

/-- The natural-language instruction rendered to the generator collaborator
(the template literal at the top of `generateSimulationPlan`). -/
def buildPrompt (config : UserConfig) : String :=
  "\n    Act as a \"GitHub History Architect\". I need to generate a realistic JSON history of Git events for a repository.\n    \n    Configuration:\n    - User: "
  ++ config.username
  ++ "\n    - Repo: " ++ config.targetRepo
  ++ "\n    - Tech Stack: " ++ config.techStack
  ++ "\n    - Branching Strategy: " ++ config.strategy
  ++ "\n    - Date Range: " ++ config.startDate ++ " to " ++ config.endDate
  ++ "\n    - Intensity (1-10): " ++ toString config.intensity
  ++ "\n    - Target Achievements: " ++ String.intercalate ", " config.achievements
  ++ "\n    - Include LFS: " ++ (if config.includeLfs then "true" else "false")
  ++ "\n\n    Generate a strictly chronological list of approximately 20-30 representative events (scaling down for demo purposes, normally would be hundreds) that tells a story of development.\n    Include a mix of:\n    1. Initial commit\n    2. Feature branches creation\n    3. Commits (feat, fix, chore, docs) with realistic messages.\n    4. Issues created and closed.\n    5. Pull Requests created, reviewed (simulated), and merged.\n    6. Tag releases (e.g., v1.0.0).\n\n    Ensure \"Pair Extraordinaire\" (Co-authored-by) is present if requested.\n    Ensure \"Pull Shark\" (Merges) is present if requested.\n    \n    The dates must be distributed realistically (more on weekdays, less on weekends).\n  "

/-- The generator collaborator's observable behaviour on one invocation:
either it throws (`fault`), or it returns a response whose `text` field may be
absent (`reply none`) or present. -/
inductive GenResponse
  | fault
  | reply (text : Option String)

/-- The fallback data returned from the `catch` block of
`generateSimulationPlan`. -/
def fallbackPlan (config : UserConfig) : List GitEvent :=
  [ { id := "evt_1"
      date := config.startDate
      type := .commit
      title := "feat: Initial project scaffold"
      description := "Initialize project structure with standard boilerplate"
      branch := some "main"
      filesChanged := some 12
      author := config.username
      tags := some ["init"] },
    { id := "evt_2"
      date := addOneDayIso config.startDate
      type := .branch
      title := "Create branch feature/auth-system"
      description := "Branching for authentication system"
      branch := some "feature/auth-system"
      filesChanged := some 0
      author := config.username
      tags := some ["flow"] } ]

/-- `generateSimulationPlan` from services/geminiService.ts.  `gen` is the
generator collaborator (invoked on the rendered prompt); `parse` is the
runtime's `JSON.parse` followed by the unchecked cast to `GitEvent[]`, with
`none` standing for a parse error being thrown.  A collaborator fault, an
absent or (after fence stripping) empty text, and a parse error all fall into
the `catch` block, which returns the fallback plan. -/
def generateSimulationPlan (gen : String → GenResponse)
    (parse : String → Option (List GitEvent)) (config : UserConfig) : List GitEvent :=
  match gen (buildPrompt config) with
  | .fault => fallbackPlan config
  | .reply textOpt =>
    let text := textOpt.getD ""
    let jsonStr := cleanJson text
    if jsonStr = "" then fallbackPlan config
    else
      match parse jsonStr with
      | some events => events
      | none => fallbackPlan config

/-- The three generation-failure modes of `generateSimulationPlan`: the
collaborator throws, the (defensively cleaned) response text is empty, or the
text fails to parse. -/
def genFailure (gen : String → GenResponse)
    (parse : String → Option (List GitEvent)) (config : UserConfig) : Prop :=
  gen (buildPrompt config) = .fault
  ∨ (∃ textOpt, gen (buildPrompt config) = .reply textOpt ∧ cleanJson (textOpt.getD "") = "")
  ∨ (∃ s, gen (buildPrompt config) = .reply (some s) ∧ cleanJson s ≠ "" ∧ parse (cleanJson s) = none)

/-- An event date lies in the configuration's inclusive calendar window. -/
def dateInWindow (config : UserConfig) (d : String) : Bool :=
  match parseIsoDate config.startDate, parseIsoDate config.endDate, parseIsoDate d with
  | some a, some b, some x => a ≤ x ∧ x ≤ b
  | _, _, _ => false

/-! ## Weaving executor (`handleWeave` in App.tsx)

`handleWeave` resets the run observer (log cleared, progress 0), attempts the
connection step (`initGitHub`), and — when it succeeds — walks the plan in
order, per event: info log, awaited `executeGitEvent` call, success-or-error
log, progress update `(i+1)/n*100`, and a fixed 800 ms pacing delay.  The
remote collaborator is an oracle `exec : Nat → Except String String` giving
the settled outcome of the i-th remote-execution call; `init` is the outcome
of the connection step.  A run's observable behaviour is collected in a
`WeaveResult`: the log entries appended (in order), the values passed to
`setProgress` (in order, starting with the reset to 0), and the sequence of
remote-execution invocations and pacing delays (in order, as issued by the
single sequential control thread). -/

/-- A suspension point of the executor: one remote-execution invocation (for
the event at the given plan index), or one fixed pacing delay (milliseconds). -/
inductive WeaveAction
  | execCall (i : Nat)
  | delay (ms : Nat)
deriving DecidableEq, Repr

/-- Everything one `handleWeave` run writes to the run observer, plus its
terminal phase. -/
structure WeaveResult where
  logs : List LogEntry
  progressUpdates : List ℚ
  actions : List WeaveAction
  phase : String
  isWeaving : Bool
deriving DecidableEq, Repr

/-- The per-event info entry `Processing [TYPE] title...`. -/
def processingLog (e : GitEvent) : LogEntry :=
  ⟨.info, "Processing [" ++ typeUpper e.type ++ "] " ++ e.title ++ "..."⟩

/-- The per-event outcome entry: the collaborator's result message at success
severity, or `Failed: reason` at error severity. -/
def outcomeLog : Except String String → LogEntry
  | .ok msg => ⟨.success, msg⟩
  | .error e => ⟨.error, "Failed: " ++ e⟩

/-- `Initializing GitHub connection for user/repo...`. -/
def initializingLog (config : UserConfig) : LogEntry :=
  ⟨.info, "Initializing GitHub connection for " ++ config.username ++ "/" ++
    config.targetRepo ++ "..."⟩

/-- `Connected securely. Starting sequence of n events.` -/
def connectedLog (n : Nat) : LogEntry :=
  ⟨.success, "Connected securely. Starting sequence of " ++ toString n ++ " events."⟩

/-- The unconditional terminal entry of the loop's success path. -/
def allProcessedLog : LogEntry := ⟨.success, "All events processed successfully."⟩

/-- The fatal entry of the connection-failure path. -/
def criticalLog (msg : String) : LogEntry := ⟨.error, "Critical Error: " ++ msg⟩

/-- The body of the `for` loop of `handleWeave`, started at plan index `i`
over the remaining events, with `n` the full plan length: returns the log
entries, progress updates and actions it produces, in order.  Note the
per-event `try`/`catch`: a failed remote call adds an error entry and the
iteration continues. -/
def weaveBody (exec : Nat → Except String String) (n : Nat) :
    Nat → List GitEvent → List LogEntry × List ℚ × List WeaveAction
  | _, [] => ([], [], [])
  | i, e :: rest =>
    let tail := weaveBody exec n (i + 1) rest
    (processingLog e :: outcomeLog (exec i) :: tail.1,
     (((i : ℚ) + 1) / (n : ℚ) * 100) :: tail.2.1,
     WeaveAction.execCall i :: WeaveAction.delay 800 :: tail.2.2)

/-- `handleWeave` from App.tsx.  The `finally` block always fires: both
termination paths end at phase `complete` (the spec's `done`) with
`isWeaving = false` and a final `setProgress(100)`. -/
def handleWeave (config : UserConfig) (plan : List GitEvent)
    (init : Except String Unit) (exec : Nat → Except String String) : WeaveResult :=
  match init with
  | .error e =>
    { logs := [initializingLog config, criticalLog e]
      progressUpdates := [0, 100]
      actions := []
      phase := "complete"
      isWeaving := false }
  | .ok _ =>
    let body := weaveBody exec plan.length 0 plan
    { logs := initializingLog config :: connectedLog plan.length ::
        (body.1 ++ [allProcessedLog])
      progressUpdates := 0 :: (body.2.1 ++ [100])
      actions := body.2.2
      phase := "complete"
      isWeaving := false }

/-- The expected action trace of `k` events starting at index `start`:
one remote-execution call then one 800 ms delay, per event, in index order. -/
def pacedTrace : Nat → Nat → List WeaveAction
  | _, 0 => []
  | start, k + 1 => WeaveAction.execCall start :: WeaveAction.delay 800 :: pacedTrace (start + 1) k

/-- The expected progress updates of `k` events starting at index `start` in a
plan of length `n`: `(i+1)/n*100` for `i = start, ..., start+k-1`. -/
def progressFrom (n : Nat) : Nat → Nat → List ℚ
  | _, 0 => []
  | i, k + 1 => ((i : ℚ) + 1) / (n : ℚ) * 100 :: progressFrom n (i + 1) k

/-! ## Structural lemmas about the executor loop -/

theorem weaveBody_actions (exec : Nat → Except String String) (n : Nat) :
    ∀ (start : Nat) (l : List GitEvent),
      (weaveBody exec n start l).2.2 = pacedTrace start l.length := by
  intro start l
  induction l generalizing start with
  | nil => rfl
  | cons e rest ih => simp [weaveBody, pacedTrace, ih]

theorem weaveBody_progress (exec : Nat → Except String String) (n : Nat) :
    ∀ (start : Nat) (l : List GitEvent),
      (weaveBody exec n start l).2.1 = progressFrom n start l.length := by
  intro start l
  induction l generalizing start with
  | nil => rfl
  | cons e rest ih => simp [weaveBody, progressFrom, ih]

theorem mem_pacedTrace_execCall :
    ∀ (k start i : Nat), start ≤ i → i < start + k →
      WeaveAction.execCall i ∈ pacedTrace start k := by
  intro k
  induction k with
  | zero => intro start i h1 h2; omega
  | succ k ih =>
    intro start i h1 h2
    rcases Nat.eq_or_lt_of_le h1 with h | h
    · subst h; simp [pacedTrace]
    · simp only [pacedTrace, List.mem_cons]
      right; right
      exact ih (start + 1) i h (by omega)

theorem weaveBody_processingLog_mem (exec : Nat → Except String String) (n : Nat) :
    ∀ (start : Nat) (l : List GitEvent) (e : GitEvent), e ∈ l →
      processingLog e ∈ (weaveBody exec n start l).1 := by
  intro start l
  induction l generalizing start with
  | nil => intro e he; cases he
  | cons a rest ih =>
    intro e he
    rcases List.mem_cons.mp he with h | h
    · subst h; simp [weaveBody]
    · simp only [weaveBody, List.mem_cons]
      right; right
      exact ih (start + 1) e h

theorem weaveBody_outcomeLog_mem (exec : Nat → Except String String) (n : Nat) :
    ∀ (start : Nat) (l : List GitEvent) (j : Nat), start ≤ j → j < start + l.length →
      outcomeLog (exec j) ∈ (weaveBody exec n start l).1 := by
  intro start l
  induction l generalizing start with
  | nil => intro j h1 h2; simp at h2; omega
  | cons a rest ih =>
    intro j h1 h2
    rcases Nat.eq_or_lt_of_le h1 with h | h
    · subst h; simp [weaveBody]
    · simp only [weaveBody, List.mem_cons]
      right; right
      exact ih (start + 1) j h (by simp at h2 ⊢; omega)

/-! ## Monotonicity of the progress sequence -/

theorem progress_step_le (n i : Nat) :
    ((i : ℚ) + 1) / (n : ℚ) * 100 ≤ ((i : ℚ) + 1 + 1) / (n : ℚ) * 100 := by
  rcases Nat.eq_zero_or_pos n with h | h
  · subst h; norm_num
  · have hn : (0 : ℚ) < (n : ℚ) := by exact_mod_cast h
    have : ((i : ℚ) + 1) / (n : ℚ) ≤ ((i : ℚ) + 1 + 1) / (n : ℚ) := by
      gcongr
      linarith
    exact mul_le_mul_of_nonneg_right this (by norm_num)

theorem progress_le_100 (n i : Nat) (h : i + 1 ≤ n) :
    ((i : ℚ) + 1) / (n : ℚ) * 100 ≤ 100 := by
  have hn : (0 : ℚ) < (n : ℚ) := by exact_mod_cast Nat.lt_of_lt_of_le (Nat.succ_pos i) h
  have h1 : ((i : ℚ) + 1) / (n : ℚ) ≤ 1 := by
    rw [div_le_one hn]
    exact_mod_cast h
  calc ((i : ℚ) + 1) / (n : ℚ) * 100 ≤ 1 * 100 :=
        mul_le_mul_of_nonneg_right h1 (by norm_num)
    _ = 100 := by norm_num

theorem progress_nonneg (n i : Nat) : (0 : ℚ) ≤ ((i : ℚ) + 1) / (n : ℚ) * 100 := by
  positivity

theorem chain_progressFrom_concat (n : Nat) :
    ∀ (k i : Nat), i + k ≤ n →
      List.Chain' (fun a b => a ≤ b) (progressFrom n i k ++ [100]) := by
  intro k
  induction k with
  | zero =>
    intro i _
    simp only [progressFrom, List.nil_append]
    exact List.chain'_singleton (100 : ℚ)
  | succ k ih =>
    intro i hik
    have htail : List.Chain' (fun a b => a ≤ b) (progressFrom n (i + 1) k ++ [100]) :=
      ih (i + 1) (by omega)
    simp only [progressFrom, List.cons_append]
    refine List.chain'_cons'.mpr ⟨?_, htail⟩
    intro y hy
    cases k with
    | zero =>
      simp only [progressFrom, List.nil_append, List.head?_cons, Option.mem_def,
        Option.some.injEq] at hy
      subst hy
      exact progress_le_100 n i (by omega)
    | succ k' =>
      simp only [progressFrom, List.cons_append, List.head?_cons, Option.mem_def,
        Option.some.injEq] at hy
      subst hy
      have := progress_step_le n i
      push_cast
      push_cast at this
      linarith

theorem head_progress_nonneg (n k i : Nat) :
    ∀ y ∈ (progressFrom n i k ++ [(100 : ℚ)]).head?, (0 : ℚ) ≤ y := by
  cases k with
  | zero =>
    intro y hy
    simp only [progressFrom, List.nil_append, List.head?_cons, Option.mem_def,
      Option.some.injEq] at hy
    subst hy; norm_num
  | succ k =>
    intro y hy
    simp only [progressFrom, List.cons_append, List.head?_cons, Option.mem_def,
      Option.some.injEq] at hy
    subst hy
    exact progress_nonneg n i

/-! ## Concrete fixtures used by witnesses and counterexamples -/

/-- The configuration of the spec's worked example:
`{startDate: "2024-01-01", endDate: "2024-01-02", username: "alice"}`. -/
def cfgAlice : UserConfig :=
  { githubToken := "ghp_secret"
    username := "alice"
    targetRepo := "repo"
    startDate := "2024-01-01"
    endDate := "2024-01-02"
    techStack := "React & TypeScript"
    intensity := 7
    strategy := "gitflow"
    includeLfs := true
    achievements := [] }

/-- An event dated far outside `cfgAlice`'s window. -/
def evOld : GitEvent :=
  { id := "e_old", date := "1999-12-31", type := .commit, title := "old commit"
    description := "", branch := some "main", filesChanged := some 1
    author := "alice", tags := none }

/-- An event inside `cfgAlice`'s window. -/
def evIn : GitEvent :=
  { id := "e_in", date := "2024-01-01", type := .commit, title := "in-window commit"
    description := "", branch := some "main", filesChanged := some 1
    author := "alice", tags := none }

def evA : GitEvent :=
  { id := "a", date := "2024-01-01", type := .commit, title := "first"
    description := "", branch := some "main", filesChanged := some 1
    author := "alice", tags := none }

def evB : GitEvent :=
  { id := "b", date := "2024-01-01", type := .branch, title := "second"
    description := "", branch := some "dev", filesChanged := some 0
    author := "alice", tags := none }

def evC : GitEvent :=
  { id := "c", date := "2024-01-02", type := .pr, title := "third"
    description := "", branch := some "dev", filesChanged := some 2
    author := "alice", tags := none }

def plan3 : List GitEvent := [evA, evB, evC]

/-- Remote collaborator that fails exactly on the second event (index 1). -/
def execFailSecond : Nat → Except String String :=
  fun k => if k = 1 then .error "rate limited" else .ok "done"

def execAlwaysOk : Nat → Except String String := fun _ => .ok "done"

/-! ## Claims about the plan generator adapter -/

/-- C1: for every configuration (satisfying the spec's date-validity
invariant on `startDate`), all three generation-failure modes — collaborator
throw, empty/absent response text, parse failure — uniformly make
`generateSimulationPlan` return the fixed two-event fallback plan instead of
propagating the error: an initial commit event dated at the configuration's
start date followed by a branch-creation event one day (86400000 ms) later,
both authored by the configured username. -/
theorem c1_failure_returns_fallback
    (gen : String → GenResponse) (parse : String → Option (List GitEvent))
    (config : UserConfig) (t : Int)
    (hfail : genFailure gen parse config)
    (hdate : parseIsoDate config.startDate = some t) :
    generateSimulationPlan gen parse config = fallbackPlan config
    ∧ fallbackPlan config =
      [ { id := "evt_1"
          date := config.startDate
          type := .commit
          title := "feat: Initial project scaffold"
          description := "Initialize project structure with standard boilerplate"
          branch := some "main"
          filesChanged := some 12
          author := config.username
          tags := some ["init"] },
        { id := "evt_2"
          date := toIsoString (t + 86400000)
          type := .branch
          title := "Create branch feature/auth-system"
          description := "Branching for authentication system"
          branch := some "feature/auth-system"
          filesChanged := some 0
          author := config.username
          tags := some ["flow"] } ] := by
  constructor
  · rcases hfail with h | ⟨textOpt, h, hempty⟩ | ⟨s, h, hne, hparse⟩
    · simp [generateSimulationPlan, h]
    · simp [generateSimulationPlan, h, hempty]
    · simp [generateSimulationPlan, h, hne, hparse]
  · simp [fallbackPlan, addOneDayIso, hdate]

theorem c1_failure_returns_fallback_witness :
    genFailure (fun _ => GenResponse.fault) (fun _ => none) cfgAlice
    ∧ parseIsoDate cfgAlice.startDate = some 1704067200000
    ∧ generateSimulationPlan (fun _ => GenResponse.fault) (fun _ => none) cfgAlice
        = fallbackPlan cfgAlice :=
  ⟨Or.inl rfl, by decide,
    (c1_failure_returns_fallback (fun _ => GenResponse.fault) (fun _ => none)
      cfgAlice 1704067200000 (Or.inl rfl) (by decide)).1⟩

/-- C2 counterexample: the generator succeeds (non-empty text that parses),
yet the returned plan is the parsed output verbatim and contains an event
dated outside the configuration's `[startDate, endDate]` window — the code
performs no window validation, refuting the claim as stated. -/
theorem c2_counterexample :
    generateSimulationPlan (fun _ => GenResponse.reply (some "[x]"))
        (fun _ => some [evOld]) cfgAlice = [evOld]
    ∧ ((generateSimulationPlan (fun _ => GenResponse.reply (some "[x]"))
        (fun _ => some [evOld]) cfgAlice).all
          (fun e => dateInWindow cfgAlice e.date)) = false := by
  constructor
  · decide
  · decide

/-- C2 (amended): when the generator collaborator succeeds — its response
text, after defensive code-fence stripping, is non-empty and parses —
`generateSimulationPlan` returns the parsed plan verbatim, with no
non-emptiness or date-window check; when generation fails it returns the
fixed fallback plan. -/
theorem c2_success_verbatim_failure_fallback
    (gen : String → GenResponse) (parse : String → Option (List GitEvent))
    (config : UserConfig) :
    (∀ (s : String) (events : List GitEvent),
        gen (buildPrompt config) = .reply (some s) → cleanJson s ≠ "" →
        parse (cleanJson s) = some events →
        generateSimulationPlan gen parse config = events)
    ∧ (genFailure gen parse config →
        generateSimulationPlan gen parse config = fallbackPlan config) := by
  constructor
  · intro s events hreply hne hparse
    simp [generateSimulationPlan, hreply, hne, hparse]
  · intro hfail
    rcases hfail with h | ⟨textOpt, h, hempty⟩ | ⟨s, h, hne, hparse⟩
    · simp [generateSimulationPlan, h]
    · simp [generateSimulationPlan, h, hempty]
    · simp [generateSimulationPlan, h, hne, hparse]

theorem c2_success_verbatim_failure_fallback_witness :
    generateSimulationPlan (fun _ => GenResponse.reply (some "[x]"))
        (fun _ => some [evIn]) cfgAlice = [evIn] :=
  (c2_success_verbatim_failure_fallback (fun _ => GenResponse.reply (some "[x]"))
      (fun _ => some [evIn]) cfgAlice).1 "[x]" [evIn] rfl (by decide) rfl

/-- C7 counterexample: at the spec's example configuration, with the
generator forced to fail, the second fallback event's date is not the bare
calendar date `"2024-01-02"` — the code stores the full `toISOString()`
rendering `"2024-01-02T00:00:00.000Z"`. -/
theorem c7_counterexample :
    ¬ ((generateSimulationPlan (fun _ => GenResponse.fault) (fun _ => none) cfgAlice).map
        (fun e => e.date) = ["2024-01-01", "2024-01-02"]) := by
  decide

/-- C7 (amended): the fallback plan is deterministic — with the generator
forced to fail, every call at the example configuration returns byte-for-byte
this two-event plan: a commit event dated `"2024-01-01"` on branch `"main"`
authored `"alice"`, then a branch event dated `"2024-01-02T00:00:00.000Z"`
(one day after the start date, in full ISO rendering) creating
`"feature/auth-system"`, authored `"alice"`. -/
theorem c7_fallback_deterministic (parse : String → Option (List GitEvent)) :
    generateSimulationPlan (fun _ => GenResponse.fault) parse cfgAlice =
      [ { id := "evt_1"
          date := "2024-01-01"
          type := .commit
          title := "feat: Initial project scaffold"
          description := "Initialize project structure with standard boilerplate"
          branch := some "main"
          filesChanged := some 12
          author := "alice"
          tags := some ["init"] },
        { id := "evt_2"
          date := "2024-01-02T00:00:00.000Z"
          type := .branch
          title := "Create branch feature/auth-system"
          description := "Branching for authentication system"
          branch := some "feature/auth-system"
          filesChanged := some 0
          author := "alice"
          tags := some ["flow"] } ] := by
  show fallbackPlan cfgAlice = _
  decide

/-! ## Claims about the weaving executor -/

/-- C3: a single event's remote-execution failure does not abort the run —
whatever index `j` fails, every plan index `i` still gets its remote-execution
invocation and its per-event info log entry, and the failing event itself gets
an error entry carrying the failure reason before the run continues. -/
theorem c3_event_failure_does_not_abort
    (config : UserConfig) (plan : List GitEvent) (exec : Nat → Except String String)
    (j : Nat) (m : String) (i : Nat)
    (hj : exec j = .error m) (hi : i < plan.length) :
    WeaveAction.execCall i ∈ (handleWeave config plan (Except.ok ()) exec).actions
    ∧ processingLog (plan.get ⟨i, hi⟩) ∈ (handleWeave config plan (Except.ok ()) exec).logs
    ∧ (j < plan.length →
        LogEntry.mk .error ("Failed: " ++ m) ∈ (handleWeave config plan (Except.ok ()) exec).logs) := by
  have hact : (handleWeave config plan (Except.ok ()) exec).actions
      = (weaveBody exec plan.length 0 plan).2.2 := rfl
  have hlog : (handleWeave config plan (Except.ok ()) exec).logs
      = initializingLog config :: connectedLog plan.length ::
          ((weaveBody exec plan.length 0 plan).1 ++ [allProcessedLog]) := rfl
  refine ⟨?_, ?_, ?_⟩
  · rw [hact, weaveBody_actions]
    exact mem_pacedTrace_execCall plan.length 0 i (Nat.zero_le i) (by omega)
  · rw [hlog]
    simp only [List.mem_cons, List.mem_append]
    right; right; left
    exact weaveBody_processingLog_mem exec plan.length 0 plan _ (plan.get_mem i hi)
  · intro hjlt
    rw [hlog]
    simp only [List.mem_cons, List.mem_append]
    right; right; left
    have := weaveBody_outcomeLog_mem exec plan.length 0 plan j (Nat.zero_le j) (by omega)
    rwa [hj] at this

theorem c3_event_failure_does_not_abort_witness :
    execFailSecond 1 = Except.error "rate limited"
    ∧ WeaveAction.execCall 2 ∈ (handleWeave cfgAlice plan3 (Except.ok ()) execFailSecond).actions
    ∧ processingLog evC ∈ (handleWeave cfgAlice plan3 (Except.ok ()) execFailSecond).logs :=
  ⟨rfl,
    (c3_event_failure_does_not_abort cfgAlice plan3 execFailSecond 1 "rate limited" 2
      rfl (by decide)).1,
    (c3_event_failure_does_not_abort cfgAlice plan3 execFailSecond 1 "rate limited" 2
      rfl (by decide)).2.1⟩

/-- C4: if the connection step fails, the run aborts before any event is
attempted — no remote-execution call and no pacing delay is issued, the log is
exactly the initialization entry plus one error-severity critical entry
(so exactly one error-severity entry overall), and the `finally` block forces
progress to 100. -/
theorem c4_connection_failure_aborts
    (config : UserConfig) (plan : List GitEvent) (exec : Nat → Except String String)
    (msg : String) :
    (handleWeave config plan (Except.error msg) exec).actions = []
    ∧ (handleWeave config plan (Except.error msg) exec).logs
        = [initializingLog config, criticalLog msg]
    ∧ ((handleWeave config plan (Except.error msg) exec).logs.filter
        (fun e => e.level == LogLevel.error)).length = 1
    ∧ (handleWeave config plan (Except.error msg) exec).progressUpdates.getLast? = some 100
    ∧ (handleWeave config plan (Except.error msg) exec).phase = "complete" :=
  ⟨rfl, rfl, rfl, rfl, rfl⟩

/-- C5: the progress contract.  On the connection-success path the updates
are exactly the reset to 0, then one update `(i+1)/n*100` per event `i` in
order (`progressFrom n 0 n`) regardless of each event's outcome, then the
final forced 100; the whole sequence is monotonically non-decreasing and ends
at 100.  On the connection-failure path the updates are `[0, 100]`, again
ending at 100. -/
theorem c5_progress_contract
    (config : UserConfig) (plan : List GitEvent) (exec : Nat → Except String String)
    (msg : String) :
    (handleWeave config plan (Except.ok ()) exec).progressUpdates
        = 0 :: (progressFrom plan.length 0 plan.length ++ [100])
    ∧ List.Chain' (fun a b => a ≤ b)
        ((handleWeave config plan (Except.ok ()) exec).progressUpdates)
    ∧ (handleWeave config plan (Except.ok ()) exec).progressUpdates.getLast? = some 100
    ∧ (handleWeave config plan (Except.error msg) exec).progressUpdates = [0, 100]
    ∧ (handleWeave config plan (Except.error msg) exec).progressUpdates.getLast? = some 100 := by
  have hupd : (handleWeave config plan (Except.ok ()) exec).progressUpdates
      = 0 :: ((weaveBody exec plan.length 0 plan).2.1 ++ [100]) := rfl
  have hps : (weaveBody exec plan.length 0 plan).2.1
      = progressFrom plan.length 0 plan.length :=
    weaveBody_progress exec plan.length 0 plan
  refine ⟨by rw [hupd, hps], ?_, ?_, rfl, rfl⟩
  · rw [hupd, hps]
    refine List.chain'_cons'.mpr
      ⟨?_, chain_progressFrom_concat plan.length plan.length 0 (by omega)⟩
    exact head_progress_nonneg plan.length plan.length 0
  · rw [hupd, hps,
      show (0 : ℚ) :: (progressFrom plan.length 0 plan.length ++ [100])
        = ((0 : ℚ) :: progressFrom plan.length 0 plan.length) ++ [100] from rfl]
    exact List.getLast?_concat _

/-- C6 counterexample: for an empty plan with a successful connection the log
is not just the connection-success entry — it also holds the initialization
entry and the unconditional terminal entry. -/
theorem c6_counterexample :
    (handleWeave cfgAlice [] (Except.ok ()) execAlwaysOk).logs ≠ [connectedLog 0] := by
  decide

/-- C6 (amended): for an empty plan with a successful connection the run
completes immediately — phase `complete` (the spec's `done`), progress forced
to 100, no remote-execution calls, no per-event log entries: the log is
exactly the connection-initialization entry, the connection-success entry,
and the terminal `All events processed successfully.` entry. -/
theorem c6_empty_plan_completes (config : UserConfig) (exec : Nat → Except String String) :
    handleWeave config [] (Except.ok ()) exec =
      { logs := [initializingLog config, connectedLog 0, allProcessedLog]
        progressUpdates := [0, 100]
        actions := []
        phase := "complete"
        isWeaving := false } := rfl

/-- C8: the executor's suspension trace is strictly sequential and paced —
for every plan and every remote-collaborator behaviour it is exactly
`execCall 0, delay 800, execCall 1, delay 800, ...` in plan order.  Event
`i+1`'s remote call appears only after event `i`'s call has settled and its
800 ms pacing delay has been issued, and the delay follows every event —
failed ones included, since the trace does not depend on `exec`'s outcomes at
all. -/
theorem c8_sequential_paced_trace
    (config : UserConfig) (plan : List GitEvent) (exec : Nat → Except String String) :
    (handleWeave config plan (Except.ok ()) exec).actions = pacedTrace 0 plan.length := by
  have : (handleWeave config plan (Except.ok ()) exec).actions
      = (weaveBody exec plan.length 0 plan).2.2 := rfl
  rw [this, weaveBody_actions]

/-- C9: the access token is never logged and never echoed — two runs (and two
prompt renderings, and two full plan compilations) that differ only in the
configured `githubToken` are observably identical: same rendered generator
prompt, same formatted log entries, progress updates and action trace, same
compiled plan. -/
theorem c9_token_not_observable
    (config : UserConfig) (t : String) (plan : List GitEvent)
    (init : Except String Unit) (exec : Nat → Except String String)
    (gen : String → GenResponse) (parse : String → Option (List GitEvent)) :
    buildPrompt { config with githubToken := t } = buildPrompt config
    ∧ handleWeave { config with githubToken := t } plan init exec
        = handleWeave config plan init exec
    ∧ generateSimulationPlan gen parse { config with githubToken := t }
        = generateSimulationPlan gen parse config := by
  refine ⟨rfl, ?_, rfl⟩
  cases init <;> rfl

/-- C10: whenever the connection step succeeds, the last log entry of the run
is the success-severity `All events processed successfully.` entry — for every
remote-collaborator behaviour, including plans whose every event fails, since
the terminal entry is appended unconditionally after the loop. -/
theorem c10_terminal_success_entry_unconditional
    (config : UserConfig) (plan : List GitEvent) (exec : Nat → Except String String) :
    (handleWeave config plan (Except.ok ()) exec).logs.getLast? = some allProcessedLog := by
  have : (handleWeave config plan (Except.ok ()) exec).logs
      = (initializingLog config :: connectedLog plan.length ::
          (weaveBody exec plan.length 0 plan).1) ++ [allProcessedLog] := rfl
  rw [this]
  exact List.getLast?_concat _

end Weaver
